import Mathlib

/-!
Verification of the device resolution and deployment-orchestration subsystem
of the xcode-mcp server (src/device-runner.ts and the run-on-device tool
handler of src/index.ts), as a shallow embedding in Lean.

External command executions are modelled by explicit oracles (functions from
the inputs of the external call to its outcome); the TypeScript control flow
around those calls is translated directly.  JavaScript string primitives
used by the code (includes, split on a one-character separator, trim,
truthiness of optional strings) are modelled by executable Lean functions.
-/

namespace XcodeMcp

/- ## JavaScript string primitives -/

/-- JS `s.includes(t)`: `t` occurs as a contiguous substring of `s`. -/
def strIncludes (s t : String) : Bool := decide (t.data <:+: s.data)

theorem strIncludes_iff (s t : String) : strIncludes s t = true ↔ t.data <:+: s.data :=
  decide_eq_true_iff

/-- Split a character list at every occurrence of the separator character.
Mirrors JS `String.prototype.split` with a one-character separator: the
result is never empty, and an empty input yields one empty chunk. -/
def splitOnChar (sep : Char) : List Char → List (List Char)
  | [] => [[]]
  | c :: cs =>
    let rest := splitOnChar sep cs
    if c == sep then [] :: rest
    else
      match rest with
      | [] => [[c]]
      | r :: rs => (c :: r) :: rs

/-- JS `s.split(sep)` for a one-character separator `sep`. -/
def jsSplit (s : String) (sep : Char) : List String :=
  (splitOnChar sep s.data).map (fun l => ⟨l⟩)

/-- Whitespace class of JS regular expressions and of `String.prototype.trim`. -/
def isJsWs (c : Char) : Bool :=
  c == ' ' || c == '\t' || c == '\n' || c == '\r' || c == '\x0b' || c == '\x0c' ||
  c == '\u00A0' || c == '\u1680' || ('\u2000' ≤ c && c ≤ '\u200A') ||
  c == '\u2028' || c == '\u2029' || c == '\u202F' || c == '\u205F' ||
  c == '\u3000' || c == '\uFEFF'

/-- JS `s.trim()`: strip whitespace from both ends. -/
def jsTrim (s : String) : String :=
  ⟨((s.data.dropWhile isJsWs).reverse.dropWhile isJsWs).reverse⟩

/-- JS truthiness of an optional string argument: absent and empty are falsy. -/
def jsTruthy : Option String → Bool
  | none => false
  | some s => !(s == "")

/- ## Device records (device-runner.ts, interface DeviceInfo) -/

/-- One unified device record: display name, the identifier used by
xcodebuild and xctrace (`xcodeId`), the identifier used by devicectl
(`deviceCtlId`), availability, and optional model / OS-version metadata. -/
structure DeviceInfo where
  name : String
  xcodeId : Option String
  deviceCtlId : Option String
  isAvailable : Bool
  model : Option String
  osVersion : Option String
deriving Repr, DecidableEq

/- ## findDeviceInfo (device-runner.ts lines 293-316) -/

/-- The predicate of the first `devices.find` call of `findDeviceInfo`:
exact match on either identifier. -/
def idMatch (nameOrId : String) (d : DeviceInfo) : Bool :=
  d.xcodeId == some nameOrId || d.deviceCtlId == some nameOrId

/-- The predicate of the second `devices.find` call of `findDeviceInfo`:
exact name match, or substring containment in either direction. -/
def nameMatch (nameOrId : String) (d : DeviceInfo) : Bool :=
  d.name == nameOrId || strIncludes d.name nameOrId || strIncludes nameOrId d.name

/-- `findDeviceInfo`, parameterised by the current device list.  A first scan
looks for an exact identifier match (either identifier); only when that scan
finds nothing does a second scan apply the name rules.  `none` models the
thrown device-not-found error. -/
def findDeviceInfo (devices : List DeviceInfo) (nameOrId : String) : Option DeviceInfo :=
  match devices.find? (idMatch nameOrId) with
  | some device => some device
  | none => devices.find? (nameMatch nameOrId)

/-- Reference definition following the specification text for the lookup:
four rules tried in strict precedence order over the whole list — exact
`xcodeId` match, then exact `deviceCtlId` match, then exact name match, then
substring containment either direction on the name. -/
def findDeviceInfoSpecRules (devices : List DeviceInfo) (q : String) : Option DeviceInfo :=
  match devices.find? (fun d => d.xcodeId == some q) with
  | some d => some d
  | none =>
    match devices.find? (fun d => d.deviceCtlId == some q) with
    | some d => some d
    | none =>
      match devices.find? (fun d => d.name == q) with
      | some d => some d
      | none => devices.find? (fun d => strIncludes d.name q || strIncludes q d.name)

/-- Claim C1, counterexample.  With a first record whose `deviceCtlId` equals
the query and a second record whose `xcodeId` equals it, the code returns the
first record, while the claimed strict four-rule precedence (exact `xcodeId`
match over the whole list before any `deviceCtlId` match is considered)
returns the second. -/
theorem findDeviceInfo_strict_precedence_cex :
    findDeviceInfo
        [⟨"Device One", none, some "ID-X", true, none, none⟩,
         ⟨"Device Two", some "ID-X", none, true, none, none⟩] "ID-X"
      = some ⟨"Device One", none, some "ID-X", true, none, none⟩
    ∧ findDeviceInfoSpecRules
        [⟨"Device One", none, some "ID-X", true, none, none⟩,
         ⟨"Device Two", some "ID-X", none, true, none, none⟩] "ID-X"
      = some ⟨"Device Two", some "ID-X", none, true, none, none⟩ := by
  constructor <;> rfl

/-- Claim C1 (corrected).  `findDeviceInfo` resolves the query in two passes,
not four strictly ordered rules: a first pass returns the first record in
list order whose `xcodeId` or `deviceCtlId` equals the query (the two
identifier rules are tried together, so an earlier `deviceCtlId` match beats
a later `xcodeId` match); only when no record matches either identifier does
a second pass return the first record whose name equals the query or
contains it or is contained in it.  In particular a query equal to some
record's identifier is never resolved by a mere name match. -/
theorem findDeviceInfo_two_pass (devices : List DeviceInfo) (q : String) (d : DeviceInfo) :
    findDeviceInfo devices q = some d ↔
      ((idMatch q d = true ∧ ∃ as bs, devices = as ++ d :: bs ∧ ∀ e ∈ as, idMatch q e = false)
       ∨ ((∀ e ∈ devices, idMatch q e = false)
          ∧ nameMatch q d = true
          ∧ ∃ as bs, devices = as ++ d :: bs ∧ ∀ e ∈ as, nameMatch q e = false)) := by
  unfold findDeviceInfo
  cases h : devices.find? (idMatch q) with
  | some e =>
    simp only [Option.some.injEq]
    constructor
    · rintro rfl
      left
      have he := List.find?_eq_some.mp h
      refine ⟨he.1, ?_⟩
      obtain ⟨as, bs, hdev, hall⟩ := he.2
      exact ⟨as, bs, hdev, fun a ha => by simpa using hall a ha⟩
    · rintro (⟨hid, as, bs, hdev, hall⟩ | ⟨hnone, _, _⟩)
      · have : devices.find? (idMatch q) = some d :=
          List.find?_eq_some.mpr ⟨hid, as, bs, hdev, fun a ha => by simp [hall a ha]⟩
        rw [h] at this
        exact Option.some.injEq _ _ ▸ this
      · have hmem := List.mem_of_find?_eq_some h
        have hmatch := List.find?_some h
        rw [hnone e hmem] at hmatch
        exact absurd hmatch (by simp)
  | none =>
    have hnone : ∀ e ∈ devices, idMatch q e = false := by
      intro e he
      have := List.find?_eq_none.mp h e he
      simpa using this
    constructor
    · intro hf
      right
      have hf' := List.find?_eq_some.mp hf
      refine ⟨hnone, hf'.1, ?_⟩
      obtain ⟨as, bs, hdev, hall⟩ := hf'.2
      exact ⟨as, bs, hdev, fun a ha => by simpa using hall a ha⟩
    · rintro (⟨hid, as, bs, hdev, _⟩ | ⟨_, hname, as, bs, hdev, hall⟩)
      · have hd : d ∈ devices := by
          rw [hdev]; exact List.mem_append_right _ (List.mem_cons_self _ _)
        rw [hnone d hd] at hid
        exact absurd hid (by simp)
      · exact List.find?_eq_some.mpr ⟨hname, as, bs, hdev, fun a ha => by simp [hall a ha]⟩

/- ## executeCommand (device-runner.ts lines 27-49) -/

/-- Match a literal character sequence at the head of the input, then hand
the remainder to the continuation.  Building block for the three denylist
regular expressions. -/
def litThen (pat : List Char) (k : List Char → Bool) : List Char → Bool :=
  match pat with
  | [] => fun l => k l
  | p :: ps => fun l =>
    match l with
    | [] => false
    | c :: cs => p == c && litThen ps k cs

/-- Match one or more JS-whitespace characters at the head of the input,
then hand some remainder to the continuation (the regex fragment matching
one or more whitespace characters). -/
def wsPlusThen (k : List Char → Bool) : List Char → Bool
  | [] => false
  | c :: cs => isJsWs c && (k cs || wsPlusThen k cs)

/-- Unanchored regex search: the matcher fires at some position of the
input. -/
def regexSearch (m : List Char → Bool) : List Char → Bool
  | [] => m []
  | c :: cs => m (c :: cs) || regexSearch m cs

/-- The recursive-root-deletion pattern of the denylist. -/
def rmRfPattern : List Char → Bool :=
  litThen "rm".data (wsPlusThen (litThen "-rf".data (wsPlusThen (litThen "/".data (fun _ => true)))))

/-- The filesystem-format pattern of the denylist. -/
def mkfsPattern : List Char → Bool :=
  litThen "mkfs".data (fun _ => true)

/-- The raw-block-device-write pattern of the denylist. -/
def ddIfPattern : List Char → Bool :=
  litThen "dd".data (wsPlusThen (litThen "if".data (fun _ => true)))

/-- The denylist check of `executeCommand`: the three destructive-command
regular expressions, tested anywhere in the command string. -/
def isDangerousCommand (command : String) : Bool :=
  regexSearch rmRfPattern command.data
    || regexSearch mkfsPattern command.data
    || regexSearch ddIfPattern command.data

/-- Outcome of actually spawning a process, supplied by the environment. -/
inductive SpawnResult where
  | ok (stdout stderr : String)
  | err (message : String)

/-- `executeCommand`: reject denylisted commands before spawning, otherwise
run the process and return its captured output, re-throwing its failure.
The second component counts spawned processes. -/
def executeCommand (spawn : String → Option String → Nat → SpawnResult)
    (command : String) (workingDir : Option String) (timeout : Nat) :
    Except String (String × String) × Nat :=
  if isDangerousCommand command then
    (Except.error "보안상의 이유로 이 명령어를 실행할 수 없습니다.", 0)
  else
    match spawn command workingDir timeout with
    | SpawnResult.ok out err => (Except.ok (out, err), 1)
    | SpawnResult.err m => (Except.error m, 1)

/-- Claim C6 (confirmed).  Every command matching one of the fixed denylist
patterns (recursive root deletion, filesystem-format, raw block-device
write) makes `executeCommand` fail with the security-violation error with
zero processes spawned, whatever the working directory, the timeout and the
behaviour of the process environment. -/
theorem executeCommand_denylist (spawn : String → Option String → Nat → SpawnResult)
    (command : String) (workingDir : Option String) (timeout : Nat)
    (h : isDangerousCommand command = true) :
    executeCommand spawn command workingDir timeout
      = (Except.error "보안상의 이유로 이 명령어를 실행할 수 없습니다.", 0) := by
  unfold executeCommand
  rw [h]
  rfl

/-- Claim C6, witness: the denylist fires on a concrete recursive root
deletion, with concrete working directory and timeout. -/
theorem executeCommand_denylist_witness :
    executeCommand (fun _ _ _ => SpawnResult.ok "done" "") "rm -rf /" (some "/tmp") 60000
      = (Except.error "보안상의 이유로 이 명령어를 실행할 수 없습니다.", 0) :=
  executeCommand_denylist (fun _ _ _ => SpawnResult.ok "done" "") "rm -rf /" (some "/tmp") 60000
    (by decide)

/- ## findXcodeInstallations (device-runner.ts lines 56-102) -/

/-- One discovered Xcode installation. -/
structure XcodeInstallation where
  path : String
  version : String
  buildNumber : Option String
deriving Repr, DecidableEq

/-- Filesystem and metadata environment of the installation locator: the
outcome of the enumeration command over /Applications, and of the two
preference reads for a given candidate path. -/
structure XcodeFsOracle where
  lsXcode : Except String String
  readShortVersion : String → Except String String
  readProductBuild : String → Except String String

/-- Candidate paths from the enumeration output: split its stdout on
newlines and keep the lines with nonempty trim. -/
def parseXcodePaths (stdout : String) : List String :=
  (jsSplit stdout '\n').filter (fun p => 0 < (jsTrim p).length)

/-- Metadata extraction for one candidate: when both preference reads
succeed the installation carries their trimmed values, and when either
fails it is still included, with version unknown and no build number. -/
def readInstallation (o : XcodeFsOracle) (xcodePath : String) : XcodeInstallation :=
  match o.readShortVersion xcodePath, o.readProductBuild xcodePath with
  | Except.ok v, Except.ok b => ⟨xcodePath, jsTrim v, some (jsTrim b)⟩
  | _, _ => ⟨xcodePath, "unknown", none⟩

/-- `findXcodeInstallations`: enumerate /Applications for Xcode bundles and
read each candidate's metadata; when the enumeration command itself fails,
fall back to the single conventional default installation. -/
def findXcodeInstallations (o : XcodeFsOracle) : List XcodeInstallation :=
  match o.lsXcode with
  | Except.error _ => [⟨"/Applications/Xcode.app", "unknown", none⟩]
  | Except.ok stdout => (parseXcodePaths stdout).map (readInstallation o)

/-- Claim C7, counterexample.  When the enumeration command succeeds with
empty output the function returns the empty list, contradicting the claim
that it never returns an empty sequence. -/
theorem findXcodeInstallations_empty_cex :
    findXcodeInstallations
        ⟨Except.ok "", fun _ => Except.ok "16.0", fun _ => Except.ok "16A242d"⟩ = [] := by
  rfl

/-- Claim C7 (corrected).  `findXcodeInstallations` never fails: when the
filesystem enumeration itself fails it returns the single synthetic
installation at /Applications/Xcode.app with version unknown, and when the
enumeration succeeds it returns one installation per usable enumerated line
— a nonempty sequence whenever at least one candidate is listed, but the
empty sequence when a successful enumeration lists no usable line — with any
candidate either of whose metadata reads fails still included, with version
unknown and no build number. -/
theorem findXcodeInstallations_behaviour (o : XcodeFsOracle) :
    (∀ e, o.lsXcode = Except.error e →
        findXcodeInstallations o = [⟨"/Applications/Xcode.app", "unknown", none⟩])
    ∧ (∀ s, o.lsXcode = Except.ok s →
        (findXcodeInstallations o).length = (parseXcodePaths s).length
        ∧ (parseXcodePaths s ≠ [] → findXcodeInstallations o ≠ [])
        ∧ ∀ p ∈ parseXcodePaths s,
            ((∃ e, o.readShortVersion p = Except.error e)
              ∨ (∃ e, o.readProductBuild p = Except.error e)) →
              (⟨p, "unknown", none⟩ : XcodeInstallation) ∈ findXcodeInstallations o) := by
  constructor
  · intro e he
    unfold findXcodeInstallations
    rw [he]
  · intro s hs
    unfold findXcodeInstallations
    rw [hs]
    refine ⟨List.length_map _ _, ?_, ?_⟩
    · intro hne hmap
      exact hne (List.map_eq_nil_iff.mp hmap)
    · intro p hp hfail
      have hread : readInstallation o p = ⟨p, "unknown", none⟩ := by
        unfold readInstallation
        rcases hfail with ⟨e, he⟩ | ⟨e, he⟩
        · rw [he]
        · rw [he]
          cases o.readShortVersion p <;> rfl
      exact hread ▸ List.mem_map_of_mem (readInstallation o) hp

/- ## getAllDevices (device-runner.ts lines 174-283) -/

/-- One parsed, accepted line of the xctrace device listing: display name,
UDID, availability (no Offline marker), and optional model and OS-version
tokens. -/
structure XctraceRow where
  name : String
  xcodeId : String
  isAvailable : Bool
  model : Option String
  osVersion : Option String

/-- One parsed, accepted row of the devicectl device listing: display name,
CoreDevice identifier, availability, and optional model column. -/
structure DevicectlRow where
  name : String
  deviceCtlId : String
  isAvailable : Bool
  model : Option String

/-- Replace the first element satisfying the predicate, mirroring the JS
pattern of mutating the record returned by `Array.prototype.find`. -/
def updateFirst (p : DeviceInfo → Bool) (f : DeviceInfo → DeviceInfo) :
    List DeviceInfo → List DeviceInfo
  | [] => []
  | d :: ds => if p d then f d :: ds else d :: updateFirst p f ds

/-- Accumulate one xctrace row: when a record with the same display name
already exists, merge the UDID into it, otherwise append a new record. -/
def addXctraceRow (devices : List DeviceInfo) (r : XctraceRow) : List DeviceInfo :=
  match devices.find? (fun d => d.name == r.name) with
  | some _ =>
    updateFirst (fun d => d.name == r.name)
      (fun d => { d with xcodeId := some r.xcodeId }) devices
  | none => devices ++ [⟨r.name, some r.xcodeId, none, r.isAvailable, r.model, r.osVersion⟩]

/-- The identity heuristic of the secondary scan: exact name equality or
substring containment in either direction. -/
def sameDeviceName (rowName : String) (d : DeviceInfo) : Bool :=
  d.name == rowName || (strIncludes d.name rowName || strIncludes rowName d.name)

/-- Accumulate one devicectl row: when some record matches the identity
heuristic, merge the CoreDevice identifier into the first such record and
OR its availability, otherwise append a new record. -/
def addDevicectlRow (devices : List DeviceInfo) (r : DevicectlRow) : List DeviceInfo :=
  match devices.find? (sameDeviceName r.name) with
  | some _ =>
    updateFirst (sameDeviceName r.name)
      (fun d => { d with deviceCtlId := some r.deviceCtlId,
                         isAvailable := d.isAvailable || r.isAvailable }) devices
  | none => devices ++ [⟨r.name, none, some r.deviceCtlId, r.isAvailable, r.model, none⟩]

/-- Outcome of the two discovery scans, as parsed rows or a command
failure.  The parsing of the raw text output is upstream of the merge logic
under study; a scan that fails contributes its error. -/
structure DiscoveryOracle where
  primaryRows : Except String (List XctraceRow)
  secondaryRows : Except String (List DevicectlRow)

/-- One discovery cycle: fold the primary rows into an empty list, then the
secondary rows into the result; a failed scan is caught, logged, and
contributes nothing, without aborting the other scan. -/
def runDiscovery (o : DiscoveryOracle) : List DeviceInfo :=
  let afterPrimary :=
    match o.primaryRows with
    | Except.ok rows => rows.foldl addXctraceRow []
    | Except.error _ => []
  match o.secondaryRows with
  | Except.ok rows => rows.foldl addDevicectlRow afterPrimary
  | Except.error _ => afterPrimary

/-- The process-wide device-list cache: last committed list and the
timestamp of its discovery cycle. -/
structure DeviceCache where
  devicesList : Option (List DeviceInfo)
  deviceListTimestamp : Option Nat

/-- Result of one `getAllDevices` call: the returned list, the cache after
the call, and how many discovery scans were run. -/
structure DevicesResult where
  result : List DeviceInfo
  cache : DeviceCache
  discoveryScans : Nat

/-- Five minutes in milliseconds. -/
def cacheTimeoutMs : Nat := 5 * 60 * 1000

/-- A fresh discovery cycle: run both scans and commit the accumulated list
and the entry timestamp to the cache, wholesale. -/
def freshCycle (now : Nat) (o : DiscoveryOracle) : DevicesResult :=
  let devices := runDiscovery o
  ⟨devices, ⟨some devices, some now⟩, 2⟩

/-- `getAllDevices`: serve the cached list when it exists, a refresh was not
forced, and the cache is younger than five minutes; otherwise run a fresh
discovery cycle and replace the cache. -/
def getAllDevices (forceRefresh : Bool) (now : Nat) (cache : DeviceCache)
    (o : DiscoveryOracle) : DevicesResult :=
  match cache.devicesList, cache.deviceListTimestamp with
  | some cached, some ts =>
    if !forceRefresh && decide (now - ts < cacheTimeoutMs) then ⟨cached, cache, 0⟩
    else freshCycle now o
  | _, _ => freshCycle now o

/-- Claim C3 (confirmed).  A `getAllDevices(false)` call made less than five
minutes after the cache timestamp set by a forced (hence fresh) first call
returns that call's list with the cache unchanged and zero discovery scans,
whatever discovery environment the second call would have seen; in general
any call finding a cached list younger than five minutes without a forced
refresh serves the cache unchanged with zero scans; and a call with
forceRefresh, or one finding the cache at least five minutes old, runs a
fresh discovery cycle and replaces the cached list and timestamp wholesale. -/
theorem getAllDevices_cache_policy (c : DeviceCache) (o : DiscoveryOracle) (now : Nat) :
    (∀ t₁ t₂ (o₂ : DiscoveryOracle), t₂ - t₁ < cacheTimeoutMs →
        getAllDevices false t₂ (getAllDevices true t₁ c o).cache o₂
          = ⟨(getAllDevices true t₁ c o).result, (getAllDevices true t₁ c o).cache, 0⟩)
    ∧ (∀ L ts, c.devicesList = some L → c.deviceListTimestamp = some ts →
        now - ts < cacheTimeoutMs →
        getAllDevices false now c o = ⟨L, c, 0⟩)
    ∧ (∀ force, (force = true
          ∨ (∀ ts, c.deviceListTimestamp = some ts → cacheTimeoutMs ≤ now - ts)) →
        getAllDevices force now c o
          = ⟨runDiscovery o, ⟨some (runDiscovery o), some now⟩, 2⟩) := by
  obtain ⟨dl, dts⟩ := c
  refine ⟨?_, ?_, ?_⟩
  · intro t₁ t₂ o₂ hlt
    have h₁ : getAllDevices true t₁ ⟨dl, dts⟩ o = freshCycle t₁ o := by
      cases dl <;> cases dts <;> simp [getAllDevices]
    rw [h₁]
    simp [freshCycle, getAllDevices, hlt]
  · intro L ts hL hts hlt
    simp only at hL hts
    subst hL; subst hts
    simp [getAllDevices, hlt]
  · intro force hforce
    rcases hforce with rfl | hexp
    · cases dl <;> cases dts <;> simp [getAllDevices, freshCycle]
    · cases dl with
      | none => cases dts <;> simp [getAllDevices, freshCycle]
      | some L =>
        cases dts with
        | none => simp [getAllDevices, freshCycle]
        | some ts =>
          have hge : cacheTimeoutMs ≤ now - ts := hexp ts rfl
          cases force <;> simp [getAllDevices, freshCycle, Nat.not_lt.mpr hge]

/-- Claim C5 (confirmed).  Within one discovery cycle a failing scan
contributes zero records, does not prevent the other scan from running (the
result is then exactly the other scan's accumulation), and never makes
`getAllDevices` itself fail: the cycle still commits the accumulated list —
possibly from only one source, or empty — to the cache and returns it. -/
theorem getAllDevices_failure_isolation (now : Nat) (c : DeviceCache) (o : DiscoveryOracle) :
    (∀ e rows, o.primaryRows = Except.error e → o.secondaryRows = Except.ok rows →
        runDiscovery o = rows.foldl addDevicectlRow [])
    ∧ (∀ rows e, o.primaryRows = Except.ok rows → o.secondaryRows = Except.error e →
        runDiscovery o = rows.foldl addXctraceRow [])
    ∧ (∀ e₁ e₂, o.primaryRows = Except.error e₁ → o.secondaryRows = Except.error e₂ →
        runDiscovery o = [])
    ∧ getAllDevices true now c o
        = ⟨runDiscovery o, ⟨some (runDiscovery o), some now⟩, 2⟩ := by
  refine ⟨?_, ?_, ?_, ?_⟩
  · intro e rows hp hs
    simp [runDiscovery, hp, hs]
  · intro rows e hp hs
    simp [runDiscovery, hp, hs]
  · intro e₁ e₂ hp hs
    simp [runDiscovery, hp, hs]
  · obtain ⟨dl, dts⟩ := c
    cases dl <;> cases dts <;> simp [getAllDevices, freshCycle]

/-- Claim C4 (confirmed).  When the primary source yields one device and the
secondary source yields one row whose name is exactly equal to the device's
display name, or is a substring of it, or contains it (case-sensitive), the
discovery cycle produces exactly one record carrying both identifiers, its
availability the OR of the two sightings; when neither name contains the
other, it produces two distinct records. -/
theorem discovery_merge_identity (r₁ : XctraceRow) (r₂ : DevicectlRow) :
    ((r₂.name = r₁.name ∨ r₂.name.data <:+: r₁.name.data ∨ r₁.name.data <:+: r₂.name.data) →
      runDiscovery ⟨Except.ok [r₁], Except.ok [r₂]⟩
        = [⟨r₁.name, some r₁.xcodeId, some r₂.deviceCtlId,
            r₁.isAvailable || r₂.isAvailable, r₁.model, r₁.osVersion⟩])
    ∧ ((¬ r₂.name = r₁.name ∧ ¬ r₂.name.data <:+: r₁.name.data
          ∧ ¬ r₁.name.data <:+: r₂.name.data) →
      runDiscovery ⟨Except.ok [r₁], Except.ok [r₂]⟩
        = [⟨r₁.name, some r₁.xcodeId, none, r₁.isAvailable, r₁.model, r₁.osVersion⟩,
           ⟨r₂.name, none, some r₂.deviceCtlId, r₂.isAvailable, r₂.model, none⟩]) := by
  have hcompute : runDiscovery ⟨Except.ok [r₁], Except.ok [r₂]⟩
      = addDevicectlRow
          [⟨r₁.name, some r₁.xcodeId, none, r₁.isAvailable, r₁.model, r₁.osVersion⟩] r₂ := by
    simp [runDiscovery, addXctraceRow]
  constructor
  · intro h
    rw [hcompute]
    have hsame : sameDeviceName r₂.name
        ⟨r₁.name, some r₁.xcodeId, none, r₁.isAvailable, r₁.model, r₁.osVersion⟩ = true := by
      simp only [sameDeviceName, strIncludes, Bool.or_eq_true, beq_iff_eq,
        decide_eq_true_eq]
      rcases h with h | h | h
      · exact Or.inl h.symm
      · exact Or.inr (Or.inl h)
      · exact Or.inr (Or.inr h)
    simp [addDevicectlRow, List.find?_cons, hsame, updateFirst]
  · rintro ⟨h1, h2, h3⟩
    rw [hcompute]
    have hsame : sameDeviceName r₂.name
        ⟨r₁.name, some r₁.xcodeId, none, r₁.isAvailable, r₁.model, r₁.osVersion⟩ = false := by
      simp only [sameDeviceName, strIncludes, Bool.or_eq_false_iff,
        beq_eq_false_iff_ne, ne_eq, decide_eq_false_iff_not]
      exact ⟨fun hh => h1 hh.symm, h2, h3⟩
    simp [addDevicectlRow, List.find?_cons, hsame]

/- ## launchAppOnDevice (device-runner.ts lines 478-557) and the launch
stage of the run-on-device handler (index.ts lines 688-785) -/

/-- Outcomes of the successive launch attempts and install attempts of one
run-on-device invocation, indexed by attempt number. -/
structure LaunchWorld where
  launchOutcome : Nat → Except String String
  installOutcome : Nat → Except String String

/-- Trace of the launch stage: its final result and how many launch and
install commands were issued. -/
structure StageTrace where
  result : Except String String
  launches : Nat
  installs : Nat
deriving Repr

/-- `launchAppOnDevice`: launch once; when the failure message contains the
not-installed marker and an app path was supplied, install once and re-issue
the launch command once, surfacing whatever that re-attempt produces; any
other failure is re-thrown at once. -/
def launchAppOnDevice (w : LaunchWorld) (appPath : Option String) : StageTrace :=
  match w.launchOutcome 0 with
  | Except.ok out => ⟨Except.ok out, 1, 0⟩
  | Except.error msg =>
    if strIncludes msg "is not installed" && jsTruthy appPath then
      match w.installOutcome 0 with
      | Except.error imsg => ⟨Except.error imsg, 1, 1⟩
      | Except.ok _ =>
        match w.launchOutcome 1 with
        | Except.ok out => ⟨Except.ok out, 2, 1⟩
        | Except.error msg₂ => ⟨Except.error msg₂, 2, 1⟩
    else ⟨Except.error msg, 1, 0⟩

/-- The launch stage of the run-on-device tool handler: call
`launchAppOnDevice`, and when its failure message still contains the
not-installed marker and an app path was estimated, issue one more install
command and one more launch command before surfacing the outcome. -/
def runOnDeviceLaunchStage (w : LaunchWorld) (appPath : Option String) : StageTrace :=
  let t := launchAppOnDevice w appPath
  match t.result with
  | Except.ok out => ⟨Except.ok out, t.launches, t.installs⟩
  | Except.error msg =>
    if strIncludes msg "is not installed" && jsTruthy appPath then
      match w.installOutcome t.installs with
      | Except.error imsg => ⟨Except.error imsg, t.launches, t.installs + 1⟩
      | Except.ok _ =>
        match w.launchOutcome t.launches with
        | Except.ok out => ⟨Except.ok out, t.launches + 1, t.installs + 1⟩
        | Except.error msg₃ => ⟨Except.error msg₃, t.launches + 1, t.installs + 1⟩
    else ⟨Except.error msg, t.launches, t.installs⟩

/-- A run in which the first two launch attempts fail with a not-installed
error, every install succeeds, and the third launch attempt succeeds. -/
def notInstalledWorld : LaunchWorld :=
  ⟨fun n => if n < 2
      then Except.error "The application com.example.app is not installed on the device."
      else Except.ok "Launched application",
   fun _ => Except.ok "App installed"⟩

/-- Claim C2, counterexample.  With an estimated app path and a first launch
failing with a not-installed error, when the single re-launch fails the same
way the invocation is not terminal: the handler issues a second install and
a third launch — two installs and three launches in total — contradicting
the claimed exactly-one install and exactly-one re-attempt. -/
theorem launch_retry_double_install_cex :
    (runOnDeviceLaunchStage notInstalledWorld (some "/tmp/Build/MyApp.app")).installs = 2
    ∧ (runOnDeviceLaunchStage notInstalledWorld (some "/tmp/Build/MyApp.app")).launches = 3
    ∧ (runOnDeviceLaunchStage notInstalledWorld (some "/tmp/Build/MyApp.app")).result
        = Except.ok "Launched application" :=
  ⟨rfl, rfl, rfl⟩

/-- Claim C2 (corrected).  With an estimated build product path, a first
launch failure carrying the not-installed marker triggers exactly one
install and one re-launch inside the launcher, and a success of that
re-launch is returned with one install and two launches in total; but a
second not-installed failure is not terminal: the handler then issues a
second install and a third launch, surfacing only that third outcome.  A
re-launch failure without the marker is surfaced after one install and two
launches, a first failure without the marker — or with no estimated path —
is surfaced immediately after one launch and zero installs. -/
theorem launch_retry_policy (w : LaunchWorld) (appPath : Option String) :
    (∀ out, w.launchOutcome 0 = Except.ok out →
        runOnDeviceLaunchStage w appPath = ⟨Except.ok out, 1, 0⟩)
    ∧ (∀ msg, w.launchOutcome 0 = Except.error msg →
        strIncludes msg "is not installed" = false →
        runOnDeviceLaunchStage w appPath = ⟨Except.error msg, 1, 0⟩)
    ∧ (∀ msg, w.launchOutcome 0 = Except.error msg → jsTruthy appPath = false →
        runOnDeviceLaunchStage w appPath = ⟨Except.error msg, 1, 0⟩)
    ∧ (∀ msg iout out, w.launchOutcome 0 = Except.error msg →
        strIncludes msg "is not installed" = true → jsTruthy appPath = true →
        w.installOutcome 0 = Except.ok iout → w.launchOutcome 1 = Except.ok out →
        runOnDeviceLaunchStage w appPath = ⟨Except.ok out, 2, 1⟩)
    ∧ (∀ msg iout msg₂, w.launchOutcome 0 = Except.error msg →
        strIncludes msg "is not installed" = true → jsTruthy appPath = true →
        w.installOutcome 0 = Except.ok iout → w.launchOutcome 1 = Except.error msg₂ →
        strIncludes msg₂ "is not installed" = false →
        runOnDeviceLaunchStage w appPath = ⟨Except.error msg₂, 2, 1⟩)
    ∧ (∀ msg iout msg₂ iout₂, w.launchOutcome 0 = Except.error msg →
        strIncludes msg "is not installed" = true → jsTruthy appPath = true →
        w.installOutcome 0 = Except.ok iout → w.launchOutcome 1 = Except.error msg₂ →
        strIncludes msg₂ "is not installed" = true → w.installOutcome 1 = Except.ok iout₂ →
        (runOnDeviceLaunchStage w appPath).launches = 3
        ∧ (runOnDeviceLaunchStage w appPath).installs = 2
        ∧ (runOnDeviceLaunchStage w appPath).result = w.launchOutcome 2) := by
  refine ⟨?_, ?_, ?_, ?_, ?_, ?_⟩
  · intro out h0
    simp [runOnDeviceLaunchStage, launchAppOnDevice, h0]
  · intro msg h0 hm
    simp [runOnDeviceLaunchStage, launchAppOnDevice, h0, hm]
  · intro msg h0 hap
    simp [runOnDeviceLaunchStage, launchAppOnDevice, h0, hap]
  · intro msg iout out h0 hm hap hi0 h1
    simp [runOnDeviceLaunchStage, launchAppOnDevice, h0, hm, hap, hi0, h1]
  · intro msg iout msg₂ h0 hm hap hi0 h1 hm₂
    simp [runOnDeviceLaunchStage, launchAppOnDevice, h0, hm, hap, hi0, h1, hm₂]
  · intro msg iout msg₂ iout₂ h0 hm hap hi0 h1 hm₂ hi1
    have hlaunch : launchAppOnDevice w appPath = ⟨Except.error msg₂, 2, 1⟩ := by
      simp [launchAppOnDevice, h0, hm, hap, hi0, h1]
    cases h2 : w.launchOutcome 2 with
    | ok out₃ =>
      refine ⟨?_, ?_, ?_⟩ <;>
        simp [runOnDeviceLaunchStage, hlaunch, hm₂, hap, hi1, h2]
    | error msg₃ =>
      refine ⟨?_, ?_, ?_⟩ <;>
        simp [runOnDeviceLaunchStage, hlaunch, hm₂, hap, hi1, h2]

/- ## Stage sequencing of the run-on-device handler (index.ts lines 634-699) -/

/-- Kinds of operations the handler performs between device resolution and
the launch stage. -/
inductive CmdKind where
  | bundleIdResolution
  | estimation
  | buildInstall
  | launch
deriving Repr, DecidableEq

/-- The operations the run-on-device handler performs, in order, after
device resolution: bundle-identifier resolution unless a direct bundle id
was given, then — only when neither skipBuild nor a direct bundle id was
given — the build-product-path estimation command and the combined
build+install command, then the launch stage. -/
def runOnDevicePipeline (skipBuild : Bool) (directBundleId : Option String) : List CmdKind :=
  (if jsTruthy directBundleId then [] else [CmdKind.bundleIdResolution])
    ++ (if !skipBuild && !jsTruthy directBundleId then [CmdKind.estimation] else [])
    ++ (if !skipBuild && !jsTruthy directBundleId then [CmdKind.buildInstall] else [])
    ++ [CmdKind.launch]

/-- Claim C8 (confirmed).  Whenever skipBuild is set or a direct bundle id
is given — in particular when both are — the handler issues zero
build/install commands and zero build-product-path estimation commands,
proceeding directly from bundle-identifier resolution to the launch stage. -/
theorem runOnDevice_skip_build (skipBuild : Bool) (directBundleId : Option String)
    (h : skipBuild = true ∨ jsTruthy directBundleId = true) :
    (runOnDevicePipeline skipBuild directBundleId).count CmdKind.estimation = 0
    ∧ (runOnDevicePipeline skipBuild directBundleId).count CmdKind.buildInstall = 0
    ∧ runOnDevicePipeline skipBuild directBundleId
        = (if jsTruthy directBundleId then [] else [CmdKind.bundleIdResolution])
            ++ [CmdKind.launch] := by
  rcases h with h | h
  · subst h
    cases hb : jsTruthy directBundleId <;>
      simp [runOnDevicePipeline, hb, List.count_append, List.count_cons]
  · simp [runOnDevicePipeline, h, List.count_append, List.count_cons]

/-- Claim C8, witness: with both skipBuild and a direct bundle id set the
pipeline is exactly the launch stage. -/
theorem runOnDevice_skip_build_witness :
    (runOnDevicePipeline true (some "com.example.app")).count CmdKind.estimation = 0
    ∧ (runOnDevicePipeline true (some "com.example.app")).count CmdKind.buildInstall = 0
    ∧ runOnDevicePipeline true (some "com.example.app")
        = (if jsTruthy (some "com.example.app") then [] else [CmdKind.bundleIdResolution])
            ++ [CmdKind.launch] :=
  runOnDevice_skip_build true (some "com.example.app") (Or.inl rfl)

/- ## getBundleIdentifier (device-runner.ts lines 359-396) -/

/-- The process-wide bundle-identifier cache, keyed by strings; insertion
order is preserved and an existing key's value is overwritten in place. -/
structure BundleCache where
  bundleIds : List (String × String)
deriving Repr, DecidableEq

/-- The cache key of `getBundleIdentifier`: the project path and the scheme
concatenated around a hyphen. -/
def bundleCacheKey (projectPath scheme : String) : String :=
  projectPath ++ "-" ++ scheme

/-- Cache lookup by key. -/
def lookupBundleCache (c : BundleCache) (key : String) : Option String :=
  (c.bundleIds.find? (fun kv => kv.1 == key)).map (fun kv => kv.2)

/-- `getBundleIdentifier`: serve the cached value for the key when present;
otherwise run the build-settings query — modelled by an oracle returning
the command failure, or the extracted bundle-identifier assignment when one
is present — and commit the trimmed value to the cache under the key before
returning it.  An output without the assignment is the not-found error. -/
def getBundleIdentifier (query : String → String → Except String (Option String))
    (c : BundleCache) (projectPath scheme : String) :
    Except String String × BundleCache × Nat :=
  let cacheKey := bundleCacheKey projectPath scheme
  match lookupBundleCache c cacheKey with
  | some cached => (Except.ok cached, c, 0)
  | none =>
    match query projectPath scheme with
    | Except.error e => (Except.error e, c, 1)
    | Except.ok none => (Except.error "번들 식별자를 찾을 수 없습니다.", c, 1)
    | Except.ok (some m) =>
      (Except.ok (jsTrim m), ⟨c.bundleIds ++ [(cacheKey, jsTrim m)]⟩, 1)

/-- Claim C9 (confirmed).  The bundle-identifier cache is keyed by the
concatenation projectPath-hyphen-scheme, not by the pair: whenever two input
pairs produce the same concatenation, a successful first call makes the
second call return the first pair's cached identifier with zero commands
issued, whatever its own query would have answered. -/
theorem getBundleIdentifier_key_collision
    (query₁ query₂ : String → String → Except String (Option String))
    (p₁ s₁ p₂ s₂ m : String)
    (hkey : bundleCacheKey p₁ s₁ = bundleCacheKey p₂ s₂)
    (h₁ : query₁ p₁ s₁ = Except.ok (some m)) :
    ∃ v, getBundleIdentifier query₁ ⟨[]⟩ p₁ s₁
          = (Except.ok v, ⟨[(bundleCacheKey p₁ s₁, v)]⟩, 1)
      ∧ getBundleIdentifier query₂ ⟨[(bundleCacheKey p₁ s₁, v)]⟩ p₂ s₂
          = (Except.ok v, ⟨[(bundleCacheKey p₁ s₁, v)]⟩, 0) := by
  refine ⟨jsTrim m, ?_, ?_⟩
  · simp [getBundleIdentifier, lookupBundleCache, h₁]
  · simp [getBundleIdentifier, lookupBundleCache, ← hkey]

/-- Claim C9, witness: the distinct pairs ("a-b", "c") and ("a", "b-c")
share the key "a-b-c", and the second call is served the first call's
cached identifier even though its own query would answer differently. -/
theorem getBundleIdentifier_key_collision_witness :
    ∃ v, getBundleIdentifier (fun _ _ => Except.ok (some "com.example.app")) ⟨[]⟩ "a-b" "c"
          = (Except.ok v, ⟨[(bundleCacheKey "a-b" "c", v)]⟩, 1)
      ∧ getBundleIdentifier (fun _ _ => Except.ok (some "other.bundle"))
            ⟨[(bundleCacheKey "a-b" "c", v)]⟩ "a" "b-c"
          = (Except.ok v, ⟨[(bundleCacheKey "a-b" "c", v)]⟩, 0) :=
  getBundleIdentifier_key_collision
    (fun _ _ => Except.ok (some "com.example.app"))
    (fun _ _ => Except.ok (some "other.bundle"))
    "a-b" "c" "a" "b-c" "com.example.app" (by decide) rfl

/- ## Environment-variable parsing of the run-on-device handler
(index.ts lines 677-686) -/

/-- Per-pair parsing: split the pair on the equals sign, keep only the
first two segments as key and value, and reject the pair when either is
empty or missing. -/
def parseEnvPair (pair : String) : Option (String × String) :=
  match jsSplit pair '=' with
  | key :: value :: _ =>
    if !(key == "") && !(value == "") then some (key, value) else none
  | _ => none

/-- JS object assignment on a string-keyed map kept as an insertion-ordered
association list: overwrite the value of an existing key in place, append a
new key. -/
def upsertEnv : List (String × String) → String → String → List (String × String)
  | [], k, v => [(k, v)]
  | (k', v') :: rest, k, v =>
    if k' == k then (k', v) :: rest else (k', v') :: upsertEnv rest k v

/-- The handler's environment-variable parsing: split the argument on
commas and accumulate the accepted pairs into the map passed to the launch
command. -/
def parseEnvironmentVars (environmentVars : String) : List (String × String) :=
  if environmentVars == "" then []
  else
    (jsSplit environmentVars ',').foldl
      (fun acc pair =>
        match parseEnvPair pair with
        | some kv => upsertEnv acc kv.1 kv.2
        | none => acc) []

theorem mem_upsertEnv {acc : List (String × String)} {k v k₀ v₀ : String}
    (h : (k, v) ∈ upsertEnv acc k₀ v₀) : (k, v) ∈ acc ∨ (k = k₀ ∧ v = v₀) := by
  induction acc with
  | nil =>
    simp only [upsertEnv, List.mem_singleton] at h
    exact Or.inr ⟨congrArg Prod.fst h, congrArg Prod.snd h⟩
  | cons hd tl ih =>
    obtain ⟨k', v'⟩ := hd
    rw [upsertEnv] at h
    by_cases hk : (k' == k₀) = true
    · rw [if_pos hk] at h
      rcases List.mem_cons.mp h with heq | htl
      · have hks : k = k₀ := by
          have : k = k' := (congrArg Prod.fst heq)
          rw [this]
          exact eq_of_beq hk
        exact Or.inr ⟨hks, congrArg Prod.snd heq⟩
      · exact Or.inl (List.mem_cons_of_mem _ htl)
    · rw [if_neg hk] at h
      rcases List.mem_cons.mp h with heq | htl
      · exact Or.inl (heq ▸ List.mem_cons_self _ _)
      · rcases ih htl with hin | hnew
        · exact Or.inl (List.mem_cons_of_mem _ hin)
        · exact Or.inr hnew

theorem mem_foldl_parseEnv {pairs : List String} {acc : List (String × String)}
    {k v : String}
    (h : (k, v) ∈ pairs.foldl
        (fun acc pair =>
          match parseEnvPair pair with
          | some kv => upsertEnv acc kv.1 kv.2
          | none => acc) acc) :
    (k, v) ∈ acc ∨ ∃ pair ∈ pairs, parseEnvPair pair = some (k, v) := by
  induction pairs generalizing acc with
  | nil => exact Or.inl h
  | cons p ps ih =>
    rw [List.foldl_cons] at h
    rcases ih h with hstep | ⟨pair, hpair, hparse⟩
    · cases hp : parseEnvPair p with
      | none =>
        rw [hp] at hstep
        exact Or.inl hstep
      | some kv =>
        rw [hp] at hstep
        rcases mem_upsertEnv hstep with hin | ⟨hk, hv⟩
        · exact Or.inl hin
        · refine Or.inr ⟨p, List.mem_cons_self _ _, ?_⟩
          rw [hp, hk, hv]
    · exact Or.inr ⟨pair, List.mem_cons_of_mem _ hpair, hparse⟩

theorem parseEnvPair_eq_some {pair k v : String} :
    parseEnvPair pair = some (k, v) ↔
      ∃ rest, jsSplit pair '=' = k :: v :: rest ∧ k ≠ "" ∧ v ≠ "" := by
  constructor
  · intro h
    unfold parseEnvPair at h
    cases hs : jsSplit pair '=' with
    | nil => rw [hs] at h; exact absurd h (by simp)
    | cons a t =>
      cases t with
      | nil => rw [hs] at h; exact absurd h (by simp)
      | cons b rest =>
        rw [hs] at h
        by_cases ha : (a == "") = true
        · simp [ha] at h
        · by_cases hb : (b == "") = true
          · simp [ha, hb] at h
          · simp only [ha, hb, Bool.not_false, Bool.and_self, if_pos] at h
            have hk2 : a = k := congrArg Prod.fst (Option.some.injEq _ _ ▸ h)
            have hv2 : b = v := congrArg Prod.snd (Option.some.injEq _ _ ▸ h)
            subst hk2
            subst hv2
            refine ⟨rest, rfl, ?_, ?_⟩
            · exact fun he => ha (by simp [he])
            · exact fun he => hb (by simp [he])
  · rintro ⟨rest, hs, hk, hv⟩
    unfold parseEnvPair
    rw [hs]
    simp [hk, hv]

/-- Claim C10 (confirmed).  The handler splits the environmentVars string on
commas and each pair on equals signs, keeping only the first two segments:
every entry of the resulting map comes from some comma-separated pair whose
first equals-segment is the key and whose second is the value — so a value
containing an equals sign is truncated there, the remaining segments
dropped — and a pair with an empty or missing key or value segment is
silently omitted. -/
theorem environmentVars_parsing (s : String) :
    (∀ k v, (k, v) ∈ parseEnvironmentVars s →
        ∃ pair, pair ∈ jsSplit s ','
          ∧ ∃ rest, jsSplit pair '=' = k :: v :: rest ∧ k ≠ "" ∧ v ≠ "")
    ∧ (∀ pair key value rest, jsSplit pair '=' = key :: value :: rest →
        key = "" ∨ value = "" → parseEnvPair pair = none)
    ∧ (∀ pair key, jsSplit pair '=' = [key] → parseEnvPair pair = none)
    ∧ (∀ pair key value rest, jsSplit pair '=' = key :: value :: rest →
        key ≠ "" → value ≠ "" → parseEnvPair pair = some (key, value)) := by
  refine ⟨?_, ?_, ?_, ?_⟩
  · intro k v hmem
    unfold parseEnvironmentVars at hmem
    by_cases hs : (s == "") = true
    · rw [if_pos hs] at hmem
      exact absurd hmem (List.not_mem_nil _)
    · rw [if_neg hs] at hmem
      rcases mem_foldl_parseEnv hmem with hin | ⟨pair, hpair, hparse⟩
      · exact absurd hin (List.not_mem_nil _)
      · obtain ⟨rest, hsplit, hk, hv⟩ := parseEnvPair_eq_some.mp hparse
        exact ⟨pair, hpair, rest, hsplit, hk, hv⟩
  · intro pair key value rest hsplit hempty
    unfold parseEnvPair
    rw [hsplit]
    rcases hempty with rfl | rfl <;> simp
  · intro pair key hsplit
    unfold parseEnvPair
    rw [hsplit]
  · intro pair key value rest hsplit hk hv
    exact parseEnvPair_eq_some.mpr ⟨rest, hsplit, hk, hv⟩

end XcodeMcp
